import Mathlib

/-!
Verification of the DialecticSphere deformation-and-rasterization pipeline.

The development shallowly embeds the two core modules of the repository:

* shapeDeformer.js: the deformation-mode hierarchy (DeformationMode,
  HarmonicMode, CosineHarmonicMode, MixedHarmonicMode, NoiseDeformation),
  the ShapeDeformer container (setAmplitude, removeMode, applyPreset,
  getCurrentPreset) and the mesh generator createDeformedSphere;
* renderer.js: the Renderer's per-frame geometry (rotatePoint, projectPoint,
  calculateNormal, calculateLighting) and the triangle building, backface
  culling and painter-algorithm sorting of draw.

JS numbers are modelled by real numbers; the C-style loops of the source
become maps over explicit index lists; the conditional pushes of draw become
conditional list fragments.  Division by zero is total in the reals (x / 0 =
0), which matches the observable culling decision of the source where a
NaN-component normal also fails the normal.z < 0 test.
-/

namespace DialecticSphere

/-- A 3D point, the plain mutable record of x, y, z coordinates the source
passes between ShapeDeformer and Renderer. -/
structure Point3 where
  x : ℝ
  y : ℝ
  z : ℝ

/-- The closed set of deformation-mode variants of shapeDeformer.js: the
DeformationMode base class (zero deformation), HarmonicMode,
CosineHarmonicMode, MixedHarmonicMode and NoiseDeformation with its scale. -/
inductive ModeKind where
  | base : ModeKind
  | harmonic (thetaFreq phiFreq : ℝ) : ModeKind
  | cosineHarmonic (thetaFreq phiFreq : ℝ) : ModeKind
  | mixedHarmonic : ModeKind
  | noise (scale : ℝ) : ModeKind

/-- A deformation mode: the fields every DeformationMode instance carries,
plus the variant tag with the per-variant parameters. -/
structure Mode where
  name : String
  description : String
  defaultAmplitude : ℝ
  amplitude : ℝ
  kind : ModeKind

/-- NoiseDeformation.noise3D: a deterministic trigonometric pseudo-noise. -/
noncomputable def noise3D (scale x y z : ℝ) : ℝ :=
  Real.sin (x * 0.1 * scale) * Real.cos (y * 0.1 * scale) * Real.sin (z * 0.1 * scale)

/-- applyDeformation of each DeformationMode variant.  The base class returns
0; NoiseDeformation returns 0 when no base point is supplied, and otherwise
evaluates noise3D at ten times the base-point coordinates. -/
noncomputable def Mode.applyDeformation (m : Mode) (theta phi : ℝ)
    (basePoint : Option Point3) : ℝ :=
  match m.kind with
  | ModeKind.base => 0
  | ModeKind.harmonic thetaFreq phiFreq =>
      m.amplitude * Real.sin (thetaFreq * theta) * Real.sin (phiFreq * phi)
  | ModeKind.cosineHarmonic thetaFreq phiFreq =>
      m.amplitude * Real.cos (thetaFreq * theta) * Real.sin (phiFreq * phi)
  | ModeKind.mixedHarmonic =>
      m.amplitude * Real.sin (theta + 3 * phi) * Real.cos (2 * theta)
  | ModeKind.noise scale =>
      match basePoint with
      | none => 0
      | some p => m.amplitude * noise3D scale (p.x * 10) (p.y * 10) (p.z * 10)

/-- The ShapeDeformer: a base radius and the ordered list of modes. -/
structure ShapeDeformer where
  baseRadius : ℝ
  modes : List Mode

/-- The seven modes installed by ShapeDeformer.setupDefaultModes, in source
order, every amplitude at its default 0. -/
def defaultModes : List Mode :=
  [ ⟨"Mode 1", "3 waves around equator, 2 waves pole-to-pole", 0, 0, ModeKind.harmonic 3 2⟩,
    ⟨"Mode 2", "5 waves around equator, 3 waves pole-to-pole", 0, 0, ModeKind.harmonic 5 3⟩,
    ⟨"Mode 3", "7 waves around equator, 1 wave pole-to-pole", 0, 0, ModeKind.harmonic 7 1⟩,
    ⟨"Pinch", "Pinching effect along longitude lines", 0, 0, ModeKind.cosineHarmonic 4 4⟩,
    ⟨"Ripple", "Radial ripple effect from poles", 0, 0, ModeKind.harmonic 0 3⟩,
    ⟨"Twisted", "Twisted torus-like deformation", 0, 0, ModeKind.mixedHarmonic⟩,
    ⟨"Noise", "Organic, natural-looking irregularities", 0, 0, ModeKind.noise 1⟩ ]

/-- Helper for setAmplitude: overwrite the amplitude of the mode at a given
position, leaving the list unchanged when the position is past the end. -/
def setAmpList : List Mode → ℕ → ℝ → List Mode
  | [], _, _ => []
  | m :: ms, 0, v => { m with amplitude := v } :: ms
  | m :: ms, Nat.succ n, v => m :: setAmpList ms n v

/-- ShapeDeformer.setAmplitude: stores the value verbatim when
0 <= index < modes.length and answers true; otherwise answers false and
leaves the deformer unchanged.  The JS method mutates in place; the embedding
returns the flag together with the post-state. -/
def ShapeDeformer.setAmplitude (sd : ShapeDeformer) (index : ℤ) (value : ℝ) :
    Bool × ShapeDeformer :=
  if 0 ≤ index ∧ index < (sd.modes.length : ℤ) then
    (true, { sd with modes := setAmpList sd.modes index.toNat value })
  else
    (false, sd)

/-- Helper for removeMode: splice(index, 1), dropping the element at the
given position and shifting the rest down. -/
def spliceOne : List Mode → ℕ → List Mode
  | [], _ => []
  | _ :: ms, 0 => ms
  | m :: ms, Nat.succ n => m :: spliceOne ms n

/-- ShapeDeformer.removeMode: splices out the mode when
0 <= index < modes.length and answers true; otherwise answers false and
leaves the deformer unchanged. -/
def ShapeDeformer.removeMode (sd : ShapeDeformer) (index : ℤ) : Bool × ShapeDeformer :=
  if 0 ≤ index ∧ index < (sd.modes.length : ℤ) then
    (true, { sd with modes := spliceOne sd.modes index.toNat })
  else
    (false, sd)

/-- A preset: a name and an ordered list of amplitudes. -/
structure Preset where
  name : String
  amplitudes : List ℝ

/-- Helper for applyPreset: the loop
for (i = 0; i < modes.length and i < amplitudes.length; i++)
overwriting amplitudes pairwise from the front. -/
def applyAmps : List Mode → List ℝ → List Mode
  | ms, [] => ms
  | [], _ :: _ => []
  | m :: ms, a :: amps => { m with amplitude := a } :: applyAmps ms amps

/-- ShapeDeformer.applyPreset: overwrite the first
min(modes.length, preset.amplitudes.length) amplitudes in index order. -/
def ShapeDeformer.applyPreset (sd : ShapeDeformer) (p : Preset) : ShapeDeformer :=
  { sd with modes := applyAmps sd.modes p.amplitudes }

/-- ShapeDeformer.getCurrentPreset: the given name with the current
amplitudes in mode order. -/
def ShapeDeformer.getCurrentPreset (sd : ShapeDeformer) (name : String) : Preset :=
  ⟨name, sd.modes.map fun m => m.amplitude⟩

/-- The index list of the C-style loop for (v = 0; v <= n; v++): empty when
n < 0, otherwise 0, 1, ..., n. -/
def loopIndices (n : ℤ) : List ℤ :=
  if n < 0 then [] else (List.range (n.toNat + 1)).map fun k : ℕ => (k : ℤ)

/-- The unit base point of createDeformedSphere:
(sin phi * cos theta, sin phi * sin theta, cos phi). -/
noncomputable def basePointAt (theta phi : ℝ) : Point3 :=
  ⟨Real.sin phi * Real.cos theta, Real.sin phi * Real.sin theta, Real.cos phi⟩

/-- The accumulated totalDeformation of createDeformedSphere: the sum of
applyDeformation over the mode list, the base point always supplied. -/
noncomputable def totalDeformation (modes : List Mode) (theta phi : ℝ) (bp : Point3) : ℝ :=
  (modes.map fun m => m.applyDeformation theta phi (some bp)).sum

/-- One grid point of createDeformedSphere: radius
baseRadius + totalDeformation scaled onto the base point. -/
noncomputable def spherePointAt (sd : ShapeDeformer) (theta phi : ℝ) : Point3 :=
  let bp := basePointAt theta phi
  let r := sd.baseRadius + totalDeformation sd.modes theta phi bp
  ⟨r * bp.x, r * bp.y, r * bp.z⟩

/-- ShapeDeformer.createDeformedSphere: the nested loops
for (j = 0; j <= numPointsPhi; j++) / for (i = 0; i <= numPointsTheta; i++)
with phi = j * pi / numPointsPhi and theta = i * 2 * pi / numPointsTheta.
The source validates nothing: a negative bound simply yields an empty loop. -/
noncomputable def ShapeDeformer.createDeformedSphere (sd : ShapeDeformer)
    (numPointsTheta numPointsPhi : ℤ) : List (List Point3) :=
  (loopIndices numPointsPhi).map fun j : ℤ =>
    (loopIndices numPointsTheta).map fun i : ℤ =>
      spherePointAt sd ((i : ℝ) * 2 * Real.pi / (numPointsTheta : ℝ))
        ((j : ℝ) * Real.pi / (numPointsPhi : ℝ))

/-- Euclidean length of a point seen as a vector from the origin. -/
noncomputable def norm3 (p : Point3) : ℝ :=
  Real.sqrt (p.x ^ 2 + p.y ^ 2 + p.z ^ 2)

/-- Renderer.normalizeLightDirection applied to a vector: divide each
component by the Euclidean length. -/
noncomputable def normalizeVector (v : Point3) : Point3 :=
  let length := Real.sqrt (v.x ^ 2 + v.y ^ 2 + v.z ^ 2)
  ⟨v.x / length, v.y / length, v.z / length⟩

/-- Renderer.rotatePoint: rotation around the X axis by (angleX / 100) * pi,
then around the Y axis by (angleY / 100) * pi. -/
noncomputable def rotatePoint (p : Point3) (angleX angleY : ℝ) : Point3 :=
  let radX := angleX / 100 * Real.pi
  let radY := angleY / 100 * Real.pi
  let y1 := p.y * Real.cos radX - p.z * Real.sin radX
  let z1 := p.y * Real.sin radX + p.z * Real.cos radX
  let x2 := p.x * Real.cos radY + z1 * Real.sin radY
  let z2 := -p.x * Real.sin radY + z1 * Real.cos radY
  ⟨x2, y1, z2⟩

/-- The perspective divisor of Renderer.projectPoint:
scale = 1 + z * (depth / 1000).  The source computes it bare - no epsilon
floor and no clamping. -/
noncomputable def projScale (p : Point3) (depth : ℝ) : ℝ :=
  1 + p.z * (depth / 1000)

/-- Renderer.projectPoint: divide x and y by the perspective divisor and
translate to the canvas centre; the returned z is the untouched input z. -/
noncomputable def projectPoint (width height : ℝ) (p : Point3) (depth : ℝ) : Point3 :=
  ⟨width / 2 + p.x / projScale p depth, height / 2 + p.y / projScale p depth, p.z⟩

/-- The edge cross product of Renderer.calculateNormal:
(p2 - p1) x (p3 - p1). -/
noncomputable def crossEdges (p1 p2 p3 : Point3) : Point3 :=
  let v1 : Point3 := ⟨p2.x - p1.x, p2.y - p1.y, p2.z - p1.z⟩
  let v2 : Point3 := ⟨p3.x - p1.x, p3.y - p1.y, p3.z - p1.z⟩
  ⟨v1.y * v2.z - v1.z * v2.y, v1.z * v2.x - v1.x * v2.z, v1.x * v2.y - v1.y * v2.x⟩

/-- Renderer.calculateNormal: the edge cross product divided by its length.
A zero cross product makes every component a zero numerator over a zero
length, which the real-number embedding evaluates to 0. -/
noncomputable def calculateNormal (p1 p2 p3 : Point3) : Point3 :=
  let n := crossEdges p1 p2 p3
  let length := Real.sqrt (n.x ^ 2 + n.y ^ 2 + n.z ^ 2)
  ⟨n.x / length, n.y / length, n.z / length⟩

/-- A flat-shaded colour: integer red, green and blue channels as produced
by the rgb(...) string of calculateLighting. -/
structure RGB where
  red : ℤ
  green : ℤ
  blue : ℤ

/-- Renderer.calculateLighting: intensity = max(0.1, normal dot lightDir),
channels floor(40 i), floor(120 i), floor(120 + 135 i). -/
noncomputable def calculateLighting (lightDir normal : Point3) : RGB :=
  let dot := normal.x * lightDir.x + normal.y * lightDir.y + normal.z * lightDir.z
  let intensity := max 0.1 dot
  ⟨⌊40 * intensity⌋, ⌊120 * intensity⌋, ⌊120 + 135 * intensity⌋⟩

/-- One entry of the per-frame triangle list of Renderer.draw: the three
projected points (whose z fields keep the rotated pre-projection z), the
flat colour and the average depth used for sorting. -/
structure Triangle where
  pA : Point3
  pB : Point3
  pC : Point3
  color : RGB
  avgZ : ℝ

/-- The body of the quad loop of Renderer.draw for one quad (q1, q2, q3, q4)
= (grid j i, grid j (i+1), grid (j+1) i, grid (j+1) (i+1)): rotate the four
corners, project them, compute the two face normals, and push each of the
two triangles exactly when its normal has negative z. -/
noncomputable def quadTriangles (lightDir : Point3)
    (width height rotX camAngle depth : ℝ) (q1 q2 q3 q4 : Point3) : List Triangle :=
  let p1 := rotatePoint q1 rotX camAngle
  let p2 := rotatePoint q2 rotX camAngle
  let p3 := rotatePoint q3 rotX camAngle
  let p4 := rotatePoint q4 rotX camAngle
  let p1_2d := projectPoint width height p1 depth
  let p2_2d := projectPoint width height p2 depth
  let p3_2d := projectPoint width height p3 depth
  let p4_2d := projectPoint width height p4 depth
  let normal1 := calculateNormal p1 p2 p3
  let normal2 := calculateNormal p2 p4 p3
  (if normal1.z < 0 then
    [⟨p1_2d, p2_2d, p3_2d, calculateLighting lightDir normal1, (p1.z + p2.z + p3.z) / 3⟩]
  else []) ++
  (if normal2.z < 0 then
    [⟨p2_2d, p4_2d, p3_2d, calculateLighting lightDir normal2, (p2.z + p3.z + p4.z) / 3⟩]
  else [])

/-- A candidate triangle of a quad before the backface cull, paired with the
face normal the cull inspects. -/
structure Candidate where
  tri : Triangle
  normal : Point3

/-- The two candidate triangles of one quad, in push order, before the
backface cull. -/
noncomputable def quadCandidates (lightDir : Point3)
    (width height rotX camAngle depth : ℝ) (q1 q2 q3 q4 : Point3) : List Candidate :=
  let p1 := rotatePoint q1 rotX camAngle
  let p2 := rotatePoint q2 rotX camAngle
  let p3 := rotatePoint q3 rotX camAngle
  let p4 := rotatePoint q4 rotX camAngle
  let p1_2d := projectPoint width height p1 depth
  let p2_2d := projectPoint width height p2 depth
  let p3_2d := projectPoint width height p3 depth
  let p4_2d := projectPoint width height p4 depth
  let normal1 := calculateNormal p1 p2 p3
  let normal2 := calculateNormal p2 p4 p3
  [⟨⟨p1_2d, p2_2d, p3_2d, calculateLighting lightDir normal1, (p1.z + p2.z + p3.z) / 3⟩, normal1⟩,
   ⟨⟨p2_2d, p4_2d, p3_2d, calculateLighting lightDir normal2, (p2.z + p3.z + p4.z) / 3⟩, normal2⟩]

/-- What remains of a quad when its first triangle is culled: only the
second conditional push. -/
noncomputable def quadTriangleTwoOnly (lightDir : Point3)
    (width height rotX camAngle depth : ℝ) (q2 q3 q4 : Point3) : List Triangle :=
  let p2 := rotatePoint q2 rotX camAngle
  let p3 := rotatePoint q3 rotX camAngle
  let p4 := rotatePoint q4 rotX camAngle
  let normal2 := calculateNormal p2 p4 p3
  if normal2.z < 0 then
    [⟨projectPoint width height p2 depth, projectPoint width height p4 depth,
      projectPoint width height p3 depth, calculateLighting lightDir normal2,
      (p2.z + p3.z + p4.z) / 3⟩]
  else []

/-- What remains of a quad when its second triangle is culled: only the
first conditional push. -/
noncomputable def quadTriangleOneOnly (lightDir : Point3)
    (width height rotX camAngle depth : ℝ) (q1 q2 q3 : Point3) : List Triangle :=
  let p1 := rotatePoint q1 rotX camAngle
  let p2 := rotatePoint q2 rotX camAngle
  let p3 := rotatePoint q3 rotX camAngle
  let normal1 := calculateNormal p1 p2 p3
  if normal1.z < 0 then
    [⟨projectPoint width height p1 depth, projectPoint width height p2 depth,
      projectPoint width height p3 depth, calculateLighting lightDir normal1,
      (p1.z + p2.z + p3.z) / 3⟩]
  else []

/-- Row access of the point grid, an empty row past the end. -/
def getRow (grid : List (List Point3)) (j : ℕ) : List Point3 :=
  grid.getD j []

/-- Point access of the point grid, the origin past the end (never reached on
the rectangular grids the deformer produces). -/
def getPt (grid : List (List Point3)) (j i : ℕ) : Point3 :=
  (getRow grid j).getD i ⟨0, 0, 0⟩

/-- The triangle list Renderer.draw builds before sorting: the double quad
loop for (j = 0; j < rows - 1; j++) / for (i = 0; i < row length - 1; i++)
with the two conditional pushes per quad. -/
noncomputable def buildTriangles (lightDir : Point3)
    (width height rotX camAngle depth : ℝ) (grid : List (List Point3)) : List Triangle :=
  (List.range (grid.length - 1)).flatMap fun j =>
    (List.range ((getRow grid j).length - 1)).flatMap fun i =>
      quadTriangles lightDir width height rotX camAngle depth
        (getPt grid j i) (getPt grid j (i + 1)) (getPt grid (j + 1) i)
        (getPt grid (j + 1) (i + 1))

/-- Every candidate triangle of the frame, in push order, before the cull. -/
noncomputable def allCandidates (lightDir : Point3)
    (width height rotX camAngle depth : ℝ) (grid : List (List Point3)) : List Candidate :=
  (List.range (grid.length - 1)).flatMap fun j =>
    (List.range ((getRow grid j).length - 1)).flatMap fun i =>
      quadCandidates lightDir width height rotX camAngle depth
        (getPt grid j i) (getPt grid j (i + 1)) (getPt grid (j + 1) i)
        (getPt grid (j + 1) (i + 1))

/-- The sorted triangle list of Renderer.draw:
triangles.sort((a, b) => a.avgZ - b.avgZ), ascending in avgZ; the canvas
then paints the list in order, so list order is paint order. -/
noncomputable def drawnTriangles (lightDir : Point3)
    (width height rotX camAngle depth : ℝ) (grid : List (List Point3)) : List Triangle :=
  (buildTriangles lightDir width height rotX camAngle depth grid).mergeSort
    fun a b => decide (a.avgZ ≤ b.avgZ)

/-- One full Renderer.draw frame: mesh from the deformer, then the culled,
sorted triangle list. -/
noncomputable def draw (lightDir : Point3) (width height : ℝ) (sd : ShapeDeformer)
    (rotX camAngle depth : ℝ) (numPointsTheta numPointsPhi : ℤ) : List Triangle :=
  drawnTriangles lightDir width height rotX camAngle depth
    (sd.createDeformedSphere numPointsTheta numPointsPhi)

/-- The default-constructed deformer of the application entry point:
baseRadius 200, the seven default modes. -/
def sd200 : ShapeDeformer :=
  ⟨200, defaultModes⟩

/-- A deformer with a negative base radius, legal to construct in the
source. -/
def sdNeg : ShapeDeformer :=
  ⟨-1, defaultModes⟩

/-- The grid contract of createDeformedSphere: (numPointsPhi + 1) rows of
(numPointsTheta + 1) points; entry (j, i) is spherePointAt, that is
(baseRadius + the sum of applyDeformation over the modes) times the unit
base point, at phi = j pi / numPointsPhi, theta = i 2 pi / numPointsTheta;
and with every amplitude 0 each point sits at distance |baseRadius| from
the origin. -/
def meshGridSpec (sd : ShapeDeformer) (numPointsTheta numPointsPhi : ℤ) : Prop :=
  ((sd.createDeformedSphere numPointsTheta numPointsPhi).length = numPointsPhi.toNat + 1)
  ∧ (∀ row ∈ sd.createDeformedSphere numPointsTheta numPointsPhi,
      row.length = numPointsTheta.toNat + 1)
  ∧ (∀ j i : ℕ, j ≤ numPointsPhi.toNat → i ≤ numPointsTheta.toNat →
      getPt (sd.createDeformedSphere numPointsTheta numPointsPhi) j i =
        spherePointAt sd ((i : ℝ) * 2 * Real.pi / (numPointsTheta : ℝ))
          ((j : ℝ) * Real.pi / (numPointsPhi : ℝ)))
  ∧ ((∀ m ∈ sd.modes, m.amplitude = 0) →
      ∀ row ∈ sd.createDeformedSphere numPointsTheta numPointsPhi, ∀ q ∈ row,
        norm3 q = |sd.baseRadius|)

/-! ## Helper lemmas -/

/-- A mode with amplitude 0 contributes nothing, whatever its variant. -/
theorem applyDeformation_of_amplitude_zero (m : Mode) (theta phi : ℝ)
    (bp : Option Point3) (h : m.amplitude = 0) :
    m.applyDeformation theta phi bp = 0 := by
  rcases m with ⟨nm, ds, dA, a, k⟩
  simp only at h
  subst h
  cases k <;> cases bp <;> simp [Mode.applyDeformation]

/-- The accumulated deformation vanishes when every amplitude is 0. -/
theorem totalDeformation_of_amplitudes_zero (modes : List Mode) (theta phi : ℝ)
    (bp : Point3) (h : ∀ m ∈ modes, m.amplitude = 0) :
    totalDeformation modes theta phi bp = 0 := by
  induction modes with
  | nil => simp [totalDeformation]
  | cons m ms ih =>
      simp only [totalDeformation, List.map_cons, List.sum_cons]
      rw [applyDeformation_of_amplitude_zero m theta phi _ (h m (by simp))]
      have := ih fun x hx => h x (List.mem_cons_of_mem m hx)
      simp only [totalDeformation] at this
      rw [this, add_zero]

/-- With every amplitude 0, a mesh point of createDeformedSphere lies at
distance |baseRadius| from the origin. -/
theorem norm3_spherePointAt_of_amplitudes_zero (sd : ShapeDeformer) (theta phi : ℝ)
    (h : ∀ m ∈ sd.modes, m.amplitude = 0) :
    norm3 (spherePointAt sd theta phi) = |sd.baseRadius| := by
  have h1 := Real.sin_sq_add_cos_sq theta
  have h2 := Real.sin_sq_add_cos_sq phi
  have hbp : (Real.sin phi * Real.cos theta) ^ 2 + (Real.sin phi * Real.sin theta) ^ 2 +
      (Real.cos phi) ^ 2 = 1 := by
    linear_combination (Real.sin phi) ^ 2 * h1 + h2
  simp only [spherePointAt, basePointAt, norm3,
    totalDeformation_of_amplitudes_zero sd.modes theta phi _ h, add_zero]
  rw [show (sd.baseRadius * (Real.sin phi * Real.cos theta)) ^ 2 +
      (sd.baseRadius * (Real.sin phi * Real.sin theta)) ^ 2 +
      (sd.baseRadius * Real.cos phi) ^ 2 =
      sd.baseRadius ^ 2 * ((Real.sin phi * Real.cos theta) ^ 2 +
        (Real.sin phi * Real.sin theta) ^ 2 + (Real.cos phi) ^ 2) by ring,
    hbp, mul_one, Real.sqrt_sq_eq_abs]

/-- getD of a mapped range evaluates at in-range positions. -/
theorem getD_map_range {α : Type} (n : ℕ) (g : ℕ → α) (d : α) (j : ℕ) (hj : j < n) :
    ((List.range n).map g).getD j d = g j := by
  rw [List.getD_eq_getElem?_getD]
  simp [List.getElem?_map, List.getElem?_range, hj]

/-- Entry (j, i) of the generated grid, for nonnegative loop bounds and
in-range indices. -/
theorem getPt_createDeformedSphere (sd : ShapeDeformer) (nT nP : ℤ)
    (hT : ¬ nT < 0) (hP : ¬ nP < 0) (j i : ℕ)
    (hj : j ≤ nP.toNat) (hi : i ≤ nT.toNat) :
    getPt (sd.createDeformedSphere nT nP) j i =
      spherePointAt sd ((i : ℝ) * 2 * Real.pi / (nT : ℝ))
        ((j : ℝ) * Real.pi / (nP : ℝ)) := by
  unfold getPt getRow ShapeDeformer.createDeformedSphere loopIndices
  rw [if_neg hP, if_neg hT]
  simp only [List.map_map]
  rw [getD_map_range _ _ _ j (by omega)]
  simp only [Function.comp_apply]
  rw [getD_map_range _ _ _ i (by omega)]
  push_cast
  rfl

/-- applyAmps rewrites one position at a time: position i is overwritten
exactly when the amplitude list reaches it. -/
theorem applyAmps_getElem? (ms : List Mode) (amps : List ℝ) (i : ℕ) :
    (applyAmps ms amps)[i]? =
      (ms[i]?).map fun m =>
        match amps[i]? with
        | some a => { m with amplitude := a }
        | none => m := by
  induction ms generalizing amps i with
  | nil => cases amps <;> simp [applyAmps]
  | cons m ms ih =>
      cases amps with
      | nil =>
          simp only [applyAmps, List.getElem?_nil]
          cases h : (m :: ms)[i]? <;> simp
      | cons a amps =>
          cases i with
          | zero => simp [applyAmps]
          | succ n => simpa [applyAmps] using ih amps n

/-- applyAmps keeps the mode count. -/
theorem applyAmps_length (ms : List Mode) (amps : List ℝ) :
    (applyAmps ms amps).length = ms.length := by
  induction ms generalizing amps with
  | nil => cases amps <;> simp [applyAmps]
  | cons m ms ih =>
      cases amps with
      | nil => simp [applyAmps]
      | cons a amps => simp [applyAmps, ih]

/-- setAmpList rewrites exactly the addressed position. -/
theorem setAmpList_getElem? (ms : List Mode) (n : ℕ) (v : ℝ) (i : ℕ) :
    (setAmpList ms n v)[i]? =
      if i = n then (ms[i]?).map fun m => { m with amplitude := v }
      else ms[i]? := by
  induction ms generalizing n i with
  | nil => simp [setAmpList]
  | cons m ms ih =>
      cases n with
      | zero =>
          cases i with
          | zero => simp [setAmpList]
          | succ k => simp [setAmpList]
      | succ n =>
          cases i with
          | zero => simp [setAmpList]
          | succ k => simpa [setAmpList] using ih n k

/-- splice(index, 1) shortens the list by one when the index is in range. -/
theorem spliceOne_length (ms : List Mode) (n : ℕ) (h : n < ms.length) :
    (spliceOne ms n).length = ms.length - 1 := by
  induction ms generalizing n with
  | nil => simp at h
  | cons m ms ih =>
      cases n with
      | zero => simp [spliceOne]
      | succ n =>
          have hn : n < ms.length := by simpa using h
          simp only [spliceOne, List.length_cons, ih n hn]
          omega

/-- splice(index, 1) keeps positions before the index. -/
theorem spliceOne_getElem?_lt (ms : List Mode) (n i : ℕ) (h : i < n) :
    (spliceOne ms n)[i]? = ms[i]? := by
  induction ms generalizing n i with
  | nil => simp [spliceOne]
  | cons m ms ih =>
      cases n with
      | zero => omega
      | succ n =>
          cases i with
          | zero => simp [spliceOne]
          | succ k => simpa [spliceOne] using ih n k (by omega)

/-- splice(index, 1) shifts positions at or past the index down by one. -/
theorem spliceOne_getElem?_ge (ms : List Mode) (n i : ℕ) (h : n ≤ i) :
    (spliceOne ms n)[i]? = ms[i + 1]? := by
  induction ms generalizing n i with
  | nil => simp [spliceOne]
  | cons m ms ih =>
      cases n with
      | zero => simp [spliceOne]
      | succ n =>
          cases i with
          | zero => omega
          | succ k => simpa [spliceOne] using ih n k (by omega)

/-! ## Claim theorems -/

/-- C7 counterexample: with the fractional frequency thetaFreq = 1/4 the
harmonic deformation is not 2 pi periodic in theta: at theta = 0,
phi = pi / 2 the values at theta and theta + 2 pi differ (1 versus 0). -/
theorem claim7_counterexample :
    Mode.applyDeformation
        ⟨"Quarter", "quarter-frequency harmonic", 0, 1, ModeKind.harmonic (1 / 4) 1⟩
        (0 + 2 * Real.pi) (Real.pi / 2) none ≠
      Mode.applyDeformation
        ⟨"Quarter", "quarter-frequency harmonic", 0, 1, ModeKind.harmonic (1 / 4) 1⟩
        0 (Real.pi / 2) none := by
  simp only [Mode.applyDeformation]
  rw [show (1 / 4 : ℝ) * (0 + 2 * Real.pi) = Real.pi / 2 by ring]
  norm_num [Real.sin_pi_div_two, Real.sin_zero]

/-- C7 (amended: integer frequencies): a HarmonicMode whose frequencies are
integers is 2 pi periodic in theta: applyDeformation(theta + 2 pi, phi)
equals applyDeformation(theta, phi) for every amplitude, phi and base
point. -/
theorem claim7_harmonic_periodic (name description : String) (dAmp amp : ℝ)
    (f1 f2 : ℤ) (theta phi : ℝ) (bp : Option Point3) :
    Mode.applyDeformation
        ⟨name, description, dAmp, amp, ModeKind.harmonic (f1 : ℝ) (f2 : ℝ)⟩
        (theta + 2 * Real.pi) phi bp =
      Mode.applyDeformation
        ⟨name, description, dAmp, amp, ModeKind.harmonic (f1 : ℝ) (f2 : ℝ)⟩
        theta phi bp := by
  simp only [Mode.applyDeformation]
  rw [show (f1 : ℝ) * (theta + 2 * Real.pi) =
      (f1 : ℝ) * theta + (f1 : ℝ) * (2 * Real.pi) by ring,
    Real.sin_add_int_mul_two_pi]

/-- C8: applyPreset overwrites exactly the amplitudes at positions below
min(mode count, preset length), keeps the mode count, every later mode, and
every name and variant (so every frequency); getCurrentPreset afterwards
answers the preset values inside that range and the prior amplitudes
beyond. -/
theorem claim8_applyPreset_frame (sd : ShapeDeformer) (p : Preset) (nm : String) :
    ((sd.applyPreset p).modes.length = sd.modes.length)
    ∧ (∀ i : ℕ, (sd.applyPreset p).modes[i]? =
        (sd.modes[i]?).map fun m =>
          match p.amplitudes[i]? with
          | some a => { m with amplitude := a }
          | none => m)
    ∧ (∀ i : ℕ, p.amplitudes.length ≤ i →
        (sd.applyPreset p).modes[i]? = sd.modes[i]?)
    ∧ (∀ i : ℕ,
        ((sd.applyPreset p).modes[i]?).map Mode.name = (sd.modes[i]?).map Mode.name
        ∧ ((sd.applyPreset p).modes[i]?).map Mode.kind = (sd.modes[i]?).map Mode.kind)
    ∧ (((sd.applyPreset p).getCurrentPreset nm).name = nm)
    ∧ (∀ i : ℕ, ((sd.applyPreset p).getCurrentPreset nm).amplitudes[i]? =
        if i < min sd.modes.length p.amplitudes.length then p.amplitudes[i]?
        else (sd.modes[i]?).map Mode.amplitude) := by
  refine ⟨applyAmps_length sd.modes p.amplitudes,
    fun i => applyAmps_getElem? sd.modes p.amplitudes i, ?_, ?_, rfl, ?_⟩
  · intro i hi
    rw [show (sd.applyPreset p).modes = applyAmps sd.modes p.amplitudes from rfl,
      applyAmps_getElem?]
    have hnone : p.amplitudes[i]? = none := by
      rw [List.getElem?_eq_none_iff]
      exact hi
    rw [hnone]
    cases sd.modes[i]? <;> simp
  · intro i
    rw [show (sd.applyPreset p).modes = applyAmps sd.modes p.amplitudes from rfl,
      applyAmps_getElem?]
    cases sd.modes[i]? <;> cases p.amplitudes[i]? <;> simp
  · intro i
    rw [show ((sd.applyPreset p).getCurrentPreset nm).amplitudes =
        (applyAmps sd.modes p.amplitudes).map (fun m => m.amplitude) from rfl]
    rw [List.getElem?_map, applyAmps_getElem?]
    by_cases hlt : i < min sd.modes.length p.amplitudes.length
    · rw [if_pos hlt]
      have hm : i < sd.modes.length := lt_of_lt_of_le hlt (min_le_left _ _)
      have ha : i < p.amplitudes.length := lt_of_lt_of_le hlt (min_le_right _ _)
      cases hmm : sd.modes[i]? with
      | none =>
          rw [List.getElem?_eq_none_iff] at hmm
          omega
      | some m =>
          cases haa : p.amplitudes[i]? with
          | none =>
              rw [List.getElem?_eq_none_iff] at haa
              omega
          | some a => simp [haa]
    · rw [if_neg hlt]
      cases hmm : sd.modes[i]? with
      | none => simp
      | some m =>
          have hm : i < sd.modes.length := by
            by_contra hge
            have hn : sd.modes[i]? = none := List.getElem?_eq_none_iff.mpr (by omega)
            rw [hn] at hmm
            exact Option.noConfusion hmm
          have ha : ¬ i < p.amplitudes.length := by omega
          have haa : p.amplitudes[i]? = none := by
            rw [List.getElem?_eq_none_iff]
            omega
          simp [haa]

/-- C9: an out-of-range index makes setAmplitude and removeMode answer
false and leave the deformer untouched (the embedding is total, so no
exception is possible); an in-range index makes setAmplitude answer true and
store the value verbatim at exactly that position, and makes removeMode
answer true, drop that mode and shift the later positions down by one. -/
theorem claim9_index_validation (sd : ShapeDeformer) (index : ℤ) (value : ℝ) :
    ((index < 0 ∨ (sd.modes.length : ℤ) ≤ index) →
        sd.setAmplitude index value = (false, sd) ∧ sd.removeMode index = (false, sd))
    ∧ ((0 ≤ index ∧ index < (sd.modes.length : ℤ)) →
        (sd.setAmplitude index value).1 = true
        ∧ (∀ i : ℕ, (sd.setAmplitude index value).2.modes[i]? =
            if i = index.toNat then
              (sd.modes[i]?).map fun m => { m with amplitude := value }
            else sd.modes[i]?)
        ∧ (sd.removeMode index).1 = true
        ∧ (sd.removeMode index).2.modes.length = sd.modes.length - 1
        ∧ (∀ i : ℕ, i < index.toNat →
            (sd.removeMode index).2.modes[i]? = sd.modes[i]?)
        ∧ (∀ i : ℕ, index.toNat ≤ i →
            (sd.removeMode index).2.modes[i]? = sd.modes[i + 1]?)) := by
  constructor
  · intro h
    have hcond : ¬ (0 ≤ index ∧ index < (sd.modes.length : ℤ)) := by omega
    rw [ShapeDeformer.setAmplitude, ShapeDeformer.removeMode, if_neg hcond, if_neg hcond]
    exact ⟨rfl, rfl⟩
  · rintro ⟨h0, hlt⟩
    have hcond : 0 ≤ index ∧ index < (sd.modes.length : ℤ) := ⟨h0, hlt⟩
    have htn : index.toNat < sd.modes.length := by omega
    rw [ShapeDeformer.setAmplitude, ShapeDeformer.removeMode, if_pos hcond, if_pos hcond]
    exact ⟨rfl, fun i => setAmpList_getElem? sd.modes index.toNat value i, rfl,
      spliceOne_length sd.modes index.toNat htn,
      fun i hi => spliceOne_getElem?_lt sd.modes index.toNat i hi,
      fun i hi => spliceOne_getElem?_ge sd.modes index.toNat i hi⟩

/-- C1 (the code lacks the guard the claim describes): at the point
(1, 0, -1) with depth 1000 the perspective divisor of projectPoint is
exactly 0 - no minimum-epsilon floor and no clamping exist in the source -
and projectPoint divides the x offset by that zero scale. -/
theorem claim1_unguarded_projection :
    projScale ⟨1, 0, -1⟩ 1000 = 0
    ∧ (projectPoint 800 600 ⟨1, 0, -1⟩ 1000).x = 400 + 1 / (0 : ℝ) := by
  constructor
  · norm_num [projScale]
  · norm_num [projectPoint, projScale]

/-- C2 (the code does not fail fast): createDeformedSphere performs no
input validation; a negative resolution makes the C-style loops run zero
times, so numPointsPhi = -1 silently yields an empty grid and
numPointsTheta = -1 silently yields rows with no points. -/
theorem claim2_no_failfast_empty_mesh :
    sd200.createDeformedSphere 4 (-1) = []
    ∧ sd200.createDeformedSphere (-1) 2 = [[], [], []] := by
  constructor
  · simp [ShapeDeformer.createDeformedSphere, loopIndices]
  · simp only [ShapeDeformer.createDeformedSphere, loopIndices]
    norm_num
    rw [show (2 : ℤ).toNat + 1 = 3 from rfl, show List.range 3 = [0, 1, 2] from rfl]
    rfl

/-- C3 counterexample: every amplitude of the deformer with baseRadius -1
is 0, yet the grid point (0, 0) of createDeformedSphere 1 1 does not lie at
distance baseRadius from the origin (its distance is 1, not -1). -/
theorem claim3_counterexample :
    (∀ m ∈ sdNeg.modes, m.amplitude = 0)
    ∧ norm3 (getPt (sdNeg.createDeformedSphere 1 1) 0 0) ≠ sdNeg.baseRadius := by
  have hz : ∀ m ∈ sdNeg.modes, m.amplitude = 0 := by
    intro m hm
    simp only [sdNeg, defaultModes, List.mem_cons, List.not_mem_nil, or_false] at hm
    rcases hm with h | h | h | h | h | h | h <;> subst h <;> rfl
  refine ⟨hz, ?_⟩
  rw [getPt_createDeformedSphere sdNeg 1 1 (by norm_num) (by norm_num) 0 0
    (by norm_num) (by norm_num)]
  rw [norm3_spherePointAt_of_amplitudes_zero sdNeg _ _ hz]
  norm_num [sdNeg]

/-- C3 (amended: distance |baseRadius|): for numPointsTheta >= 1 and
numPointsPhi >= 1 the mesh is a (numPointsPhi + 1) by (numPointsTheta + 1)
grid whose entry (j, i) is (baseRadius + the summed applyDeformation of all
modes at theta = i 2 pi / numPointsTheta, phi = j pi / numPointsPhi) times
the unit base point; with every amplitude 0 each point lies at distance
exactly |baseRadius| from the origin. -/
theorem claim3_mesh_grid (sd : ShapeDeformer) (numPointsTheta numPointsPhi : ℤ)
    (hT : 1 ≤ numPointsTheta) (hP : 1 ≤ numPointsPhi) :
    meshGridSpec sd numPointsTheta numPointsPhi := by
  have hTn : ¬ numPointsTheta < 0 := by omega
  have hPn : ¬ numPointsPhi < 0 := by omega
  refine ⟨?_, ?_, ?_, ?_⟩
  · simp [ShapeDeformer.createDeformedSphere, loopIndices, hPn]
  · intro row hrow
    simp only [ShapeDeformer.createDeformedSphere, List.mem_map] at hrow
    obtain ⟨j, hj, rfl⟩ := hrow
    simp [loopIndices, hTn]
  · intro j i hj hi
    exact getPt_createDeformedSphere sd numPointsTheta numPointsPhi hTn hPn j i hj hi
  · intro hamps row hrow q hq
    simp only [ShapeDeformer.createDeformedSphere, List.mem_map] at hrow
    obtain ⟨j, hj, rfl⟩ := hrow
    simp only [List.mem_map] at hq
    obtain ⟨i, hi, rfl⟩ := hq
    exact norm3_spherePointAt_of_amplitudes_zero sd _ _ hamps

/-- C3 witness: the grid contract at the application configuration,
baseRadius 200 with the default modes, at resolution 4 by 2 (end-to-end
scenario 1 of the spec). -/
theorem claim3_mesh_grid_witness : meshGridSpec sd200 4 2 :=
  claim3_mesh_grid sd200 4 2 (by norm_num) (by norm_num)

/-- C6: for a unit light vector, calculateLighting is
rgb(floor(40 i), floor(120 i), floor(120 + 135 i)) with
i = max(0.1, normal dot lightDir); a normal equal to the light vector gives
rgb(40, 120, 255) and the opposite normal gives the clamped intensity 0.1,
hence rgb(4, 12, 133). -/
theorem claim6_lighting (L : Point3) (hL : L.x ^ 2 + L.y ^ 2 + L.z ^ 2 = 1) :
    (∀ n : Point3, calculateLighting L n =
        ⟨⌊40 * max 0.1 (n.x * L.x + n.y * L.y + n.z * L.z)⌋,
         ⌊120 * max 0.1 (n.x * L.x + n.y * L.y + n.z * L.z)⌋,
         ⌊120 + 135 * max 0.1 (n.x * L.x + n.y * L.y + n.z * L.z)⌋⟩)
    ∧ calculateLighting L L = ⟨40, 120, 255⟩
    ∧ calculateLighting L ⟨-L.x, -L.y, -L.z⟩ = ⟨4, 12, 133⟩ := by
  have hdot : L.x * L.x + L.y * L.y + L.z * L.z = 1 := by linear_combination hL
  refine ⟨fun n => rfl, ?_, ?_⟩
  · simp only [calculateLighting, hdot]
    norm_num
  · have hneg : -L.x * L.x + -L.y * L.y + -L.z * L.z = -1 := by linear_combination -hL
    simp only [calculateLighting]
    rw [hneg]
    norm_num

/-- C6 witness: the lighting contract at the concrete unit light vector
(0, 0, 1): the anti-parallel normal is shaded rgb(4, 12, 133). -/
theorem claim6_lighting_witness :
    calculateLighting ⟨0, 0, 1⟩ ⟨-(0 : ℝ), -(0 : ℝ), -(1 : ℝ)⟩ = ⟨4, 12, 133⟩ :=
  (claim6_lighting ⟨0, 0, 1⟩ (by norm_num)).2.2

/-- One quad of draw equals the two-candidate list filtered by the
negative-normal-z cull. -/
theorem quadTriangles_eq_filter (lightDir : Point3)
    (width height rotX camAngle depth : ℝ) (q1 q2 q3 q4 : Point3) :
    quadTriangles lightDir width height rotX camAngle depth q1 q2 q3 q4 =
      ((quadCandidates lightDir width height rotX camAngle depth q1 q2 q3 q4).filter
        fun c => decide (c.normal.z < 0)).map Candidate.tri := by
  simp only [quadTriangles, quadCandidates]
  by_cases h1 : (calculateNormal (rotatePoint q1 rotX camAngle)
      (rotatePoint q2 rotX camAngle) (rotatePoint q3 rotX camAngle)).z < 0 <;>
    by_cases h2 : (calculateNormal (rotatePoint q2 rotX camAngle)
        (rotatePoint q4 rotX camAngle) (rotatePoint q3 rotX camAngle)).z < 0 <;>
    simp [List.filter_cons, h1, h2]

/-- A zero edge cross product makes calculateNormal the zero vector: every
component is a zero numerator (over the zero length, division being total
in the embedding). -/
theorem calculateNormal_of_crossEdges_zero (p1 p2 p3 : Point3)
    (h : crossEdges p1 p2 p3 = ⟨0, 0, 0⟩) :
    calculateNormal p1 p2 p3 = ⟨0, 0, 0⟩ := by
  simp only [calculateNormal, h]
  norm_num

/-- Every triangle a quad pushes records avgZ equal to the mean of the z
fields of its three stored points (projectPoint passes the rotated z
through unchanged). -/
theorem quadTriangles_avgZ (lightDir : Point3)
    (width height rotX camAngle depth : ℝ) (q1 q2 q3 q4 : Point3) (t : Triangle)
    (ht : t ∈ quadTriangles lightDir width height rotX camAngle depth q1 q2 q3 q4) :
    t.avgZ = (t.pA.z + t.pB.z + t.pC.z) / 3 := by
  simp only [quadTriangles] at ht
  rw [List.mem_append] at ht
  rcases ht with ht | ht
  · split at ht
    · simp only [List.mem_singleton] at ht
      subst ht
      simp [projectPoint]
    · simp at ht
  · split at ht
    · simp only [List.mem_singleton] at ht
      subst ht
      simp only [projectPoint]
      ring
    · simp at ht

/-- avgZ of every triangle of the pre-sort list of a frame. -/
theorem buildTriangles_avgZ (lightDir : Point3)
    (width height rotX camAngle depth : ℝ) (grid : List (List Point3)) (t : Triangle)
    (ht : t ∈ buildTriangles lightDir width height rotX camAngle depth grid) :
    t.avgZ = (t.pA.z + t.pB.z + t.pC.z) / 3 := by
  simp only [buildTriangles, List.mem_flatMap] at ht
  obtain ⟨j, hj, i, hi, hmem⟩ := ht
  exact quadTriangles_avgZ lightDir width height rotX camAngle depth _ _ _ _ t hmem

/-- C4: the triangle list of a frame is exactly the per-quad candidate list
(each candidate carrying the unit face normal computed in rotated,
pre-projection space) filtered by normal.z < 0: a triangle is kept iff the
z component of its face normal is strictly negative, and every candidate
with normal.z >= 0 is discarded. -/
theorem claim4_backface_cull (lightDir : Point3)
    (width height rotX camAngle depth : ℝ) (grid : List (List Point3)) :
    buildTriangles lightDir width height rotX camAngle depth grid =
      ((allCandidates lightDir width height rotX camAngle depth grid).filter
        fun c => decide (c.normal.z < 0)).map Candidate.tri := by
  simp only [buildTriangles, allCandidates, List.filter_flatMap, List.map_flatMap,
    quadTriangles_eq_filter]

/-- C5: every triangle surviving the cull carries avgZ equal to the mean of
the three rotated pre-projection z coordinates it stores, the sorted list
is a permutation of the built list, and painting follows ascending avgZ:
a strictly smaller avgZ is painted strictly earlier. -/
theorem claim5_painter_order (lightDir : Point3)
    (width height rotX camAngle depth : ℝ) (grid : List (List Point3)) :
    (∀ t ∈ drawnTriangles lightDir width height rotX camAngle depth grid,
        t.avgZ = (t.pA.z + t.pB.z + t.pC.z) / 3)
    ∧ (drawnTriangles lightDir width height rotX camAngle depth grid).Perm
        (buildTriangles lightDir width height rotX camAngle depth grid)
    ∧ (∀ a b : Fin (drawnTriangles lightDir width height rotX camAngle depth grid).length,
        ((drawnTriangles lightDir width height rotX camAngle depth grid).get a).avgZ <
          ((drawnTriangles lightDir width height rotX camAngle depth grid).get b).avgZ →
        (a : ℕ) < (b : ℕ)) := by
  have hperm : (drawnTriangles lightDir width height rotX camAngle depth grid).Perm
      (buildTriangles lightDir width height rotX camAngle depth grid) :=
    List.mergeSort_perm _ _
  refine ⟨?_, hperm, ?_⟩
  · intro t ht
    exact buildTriangles_avgZ lightDir width height rotX camAngle depth grid t
      (hperm.mem_iff.mp ht)
  · have hsorted : List.Pairwise
        (fun a b : Triangle => (decide (a.avgZ ≤ b.avgZ)) = true)
        (drawnTriangles lightDir width height rotX camAngle depth grid) := by
      rw [drawnTriangles]
      exact List.sorted_mergeSort
        (fun a b c hab hbc => by
          simp only [decide_eq_true_eq] at hab hbc ⊢
          exact le_trans hab hbc)
        (fun a b => by
          simp only [Bool.or_eq_true, decide_eq_true_eq]
          exact le_total a.avgZ b.avgZ) _
    rw [List.pairwise_iff_get] at hsorted
    intro a b hab
    by_contra hba
    push_neg at hba
    rcases Nat.lt_or_ge (b : ℕ) (a : ℕ) with h | h
    · have hs := hsorted b a h
      simp only [decide_eq_true_eq] at hs
      exact absurd hab (not_lt.mpr hs)
    · have hval : (a : ℕ) = (b : ℕ) := le_antisymm h hba
      have heq : a = b := Fin.ext hval
      subst heq
      exact lt_irrefl _ hab

/-- C10: a degenerate triangle whose edge cross product is zero gets the
zero normal, so the normal.z < 0 cull rejects it and the quad contributes
at most its other triangle: a zero first-triangle cross product (rotated
p1 p2 p3) leaves only the second conditional push and a zero
second-triangle cross product (rotated p2 p4 p3) leaves only the first.
Two equal corners force the zero cross product in both positions that
occur at the poles: equal first two corners, as for the first triangle of
a top-row quad (p1 = p2 on the phi = 0 row), and equal last two corners,
as for the second triangle of a bottom-row quad (p4 = p3 on the
phi = pi row); with every amplitude 0 each mode's deformation at the poles
is independent of theta and both pole rows of the mesh collapse to a
single repeated point.  The embedding is total, so the renderer cannot
crash on these triangles. -/
theorem claim10_degenerate_culled :
    (∀ p1 p2 p3 : Point3, crossEdges p1 p2 p3 = ⟨0, 0, 0⟩ →
        calculateNormal p1 p2 p3 = ⟨0, 0, 0⟩)
    ∧ (∀ p r : Point3, crossEdges p p r = ⟨0, 0, 0⟩)
    ∧ (∀ p r : Point3, crossEdges p r r = ⟨0, 0, 0⟩)
    ∧ (∀ (lightDir : Point3) (width height rotX camAngle depth : ℝ)
        (q1 q2 q3 q4 : Point3),
        crossEdges (rotatePoint q1 rotX camAngle) (rotatePoint q2 rotX camAngle)
            (rotatePoint q3 rotX camAngle) = ⟨0, 0, 0⟩ →
        quadTriangles lightDir width height rotX camAngle depth q1 q2 q3 q4 =
          quadTriangleTwoOnly lightDir width height rotX camAngle depth q2 q3 q4)
    ∧ (∀ (lightDir : Point3) (width height rotX camAngle depth : ℝ)
        (q1 q2 q3 q4 : Point3),
        crossEdges (rotatePoint q2 rotX camAngle) (rotatePoint q4 rotX camAngle)
            (rotatePoint q3 rotX camAngle) = ⟨0, 0, 0⟩ →
        quadTriangles lightDir width height rotX camAngle depth q1 q2 q3 q4 =
          quadTriangleOneOnly lightDir width height rotX camAngle depth q1 q2 q3)
    ∧ (∀ (sd : ShapeDeformer) (theta1 theta2 : ℝ),
        (∀ m ∈ sd.modes, m.amplitude = 0) →
        spherePointAt sd theta1 0 = spherePointAt sd theta2 0)
    ∧ (∀ (sd : ShapeDeformer) (theta1 theta2 : ℝ),
        (∀ m ∈ sd.modes, m.amplitude = 0) →
        spherePointAt sd theta1 Real.pi = spherePointAt sd theta2 Real.pi) := by
  refine ⟨calculateNormal_of_crossEdges_zero, ?_, ?_, ?_, ?_, ?_, ?_⟩
  · intro p r
    simp only [crossEdges, Point3.mk.injEq]
    refine ⟨by ring, by ring, by ring⟩
  · intro p r
    simp only [crossEdges, Point3.mk.injEq]
    refine ⟨by ring, by ring, by ring⟩
  · intro lightDir width height rotX camAngle depth q1 q2 q3 q4 hc
    have h0 := calculateNormal_of_crossEdges_zero _ _ _ hc
    simp only [quadTriangles, quadTriangleTwoOnly, h0]
    rw [if_neg (by norm_num)]
    rfl
  · intro lightDir width height rotX camAngle depth q1 q2 q3 q4 hc
    have h0 := calculateNormal_of_crossEdges_zero _ _ _ hc
    simp only [quadTriangles, quadTriangleOneOnly, h0]
    rw [if_neg (show ¬ ((0 : ℝ) < 0) by norm_num), List.append_nil]
  · intro sd theta1 theta2 h
    simp only [spherePointAt, basePointAt,
      totalDeformation_of_amplitudes_zero sd.modes _ _ _ h]
    simp [Real.sin_zero, Real.cos_zero]
  · intro sd theta1 theta2 h
    simp only [spherePointAt, basePointAt,
      totalDeformation_of_amplitudes_zero sd.modes _ _ _ h]
    simp [Real.sin_pi, Real.cos_pi]

end DialecticSphere
